import Mathlib

/-!
Shallow embedding of the reflection-driven configuration binder of the
`iac-pulumi` repository (package `utils`: `ExtractConfig`, `loadJsonConfig`,
`setFieldValue`, `unmarshallJSONMap`, `unmarshallJSONArray`,
`UnmarshalJSONConfig`, `MarshalJSONConfig`).

Modelling conventions:
* JSON values decoded by `encoding/json` into `interface{}` are the inductive
  `JVal` (Go decodes objects to `map[string]interface{}`, arrays to
  `[]interface{}`, numbers to `float64`, strings, bools, and `null` to `nil`).
  `float64` values are modelled as rationals `ℚ` (no rounding is relevant to
  any statement proved here).
* A Go struct is a list of fields, each a `FieldInfo` (name and tags, the
  static metadata read through `reflect.StructField`) paired with a `FieldVal`
  (the runtime value, which also determines the field's `reflect.Kind`).
  The modelled universe of field types: `bool`, `int`, `int64` (representing
  the rest of the integer family), `float64`, `string`, `map[string]interface{}`,
  struct, pointer to struct, slice of struct, and the four pulumi input
  interfaces (`pulumi.StringInput`, `BoolInput`, `IntInput`, `Float64Input`).
  For pointer and slice fields the constructor carries the zero value of the
  pointee/element struct type, standing for the `reflect.Type` information
  used by `reflect.New` and `reflect.Append`.
* Go functions that can return an `error` or panic are modelled in `UResult`:
  `ok` (normal return), `error` (a returned `error` value, represented
  structurally by `GoErr`, one constructor per `fmt.Errorf`/`errors.New`
  site), `panicked` (a runtime panic, e.g. a failed type assertion).
-/

/-- A JSON value as decoded by `encoding/json` into `interface{}`. -/
inductive JVal where
  | jNull
  | jBool (b : Bool)
  | jNum (q : ℚ)
  | jStr (s : String)
  | jArr (elems : List JVal)
  | jObj (fields : List (String × JVal))

/-- A pulumi input-interface value (`pulumi.StringInput` etc.).  The interface
is either nil, holds a literal wrapper (`pulumi.String`, `pulumi.Bool`,
`pulumi.Int`, `pulumi.Float64`), or holds an unresolved output
(`pulumi.StringOutput` etc.), whose opaque state is modelled as a `Nat`
handle. -/
inductive PInput (α : Type) where
  | pNil
  | pLit (a : α)
  | pOutput (handle : Nat)
deriving DecidableEq

/-- Whether the interface holds a literal wrapper (the `ok` of the type
assertion `fv.Interface().(pulumi.String)` and its three siblings). -/
def PInput.isLit : PInput α → Bool
  | .pLit _ => true
  | _ => false

/-- Whether the interface is nil (`fv.IsNil()`). -/
def PInput.isNil : PInput α → Bool
  | .pNil => true
  | _ => false

/-- Static metadata of a struct field: its Go name and the tags read by the
binder (`config`, `json`, `secret`, and presence of `required`).  An empty
string models an absent tag (`reflect.StructTag.Get` returns `""`). -/
structure FieldInfo where
  name : String
  tagConfig : String
  tagJson : String
  tagSecret : String
  required : Bool
deriving DecidableEq

mutual
/-- Runtime value (and hence static type) of a modelled struct field. -/
inductive FieldVal where
  | vBool (b : Bool)
  | vInt (i : Int)
  | vInt64 (i : Int)
  | vFloat (q : ℚ)
  | vString (s : String)
  | vMap (m : Option (List (String × JVal)))
  | vStruct (s : StructVal)
  | vPtr (zeroElem : StructVal) (p : Option StructVal)
  | vSlice (zeroElem : StructVal) (elems : Option (List StructVal))
  | vStrInput (d : PInput String)
  | vBoolInput (d : PInput Bool)
  | vIntInput (d : PInput Int)
  | vFloatInput (d : PInput ℚ)

/-- A modelled Go struct value: its fields in declaration order. -/
inductive StructVal where
  | mk (fields : List (FieldInfo × FieldVal))
end

/-- Field list of a struct value. -/
def StructVal.fields : StructVal → List (FieldInfo × FieldVal)
  | .mk fs => fs

/-- The `obj interface{}` argument passed to the binder entry points, as seen
through `reflect.ValueOf(obj)`:
* `nilObj`: untyped nil (`reflect.Kind` is `Invalid`);
* `nonPtr`: any non-pointer value (`Kind != Ptr`);
* `nilPtr`: a typed nil pointer (`v.Elem().Kind()` is `Invalid`);
* `ptrOther`: a non-nil pointer to something that is neither a struct nor a
  slice;
* `ptrStruct`: a non-nil pointer to a struct;
* `ptrSlice`: a non-nil pointer to a slice of struct (carrying the element
  type's zero value and the slice contents, `none` for a nil slice). -/
inductive GoObj where
  | nilObj
  | nonPtr
  | nilPtr
  | ptrOther
  | ptrStruct (s : StructVal)
  | ptrSlice (zeroElem : StructVal) (elems : Option (List StructVal))

/-- Go `error` values produced by the binder, one constructor per
`errors.New`/`fmt.Errorf` site (wrapping via `%w` is modelled by nesting):
* `missingConfig key`: a required configuration lookup failed (pulumi
  `Require*`);
* `requiredJson key`: `fmt.Errorf("config %s is required")` in
  `loadJsonConfig`;
* `secretNonOutput field`: `fmt.Errorf("field '%s' is marked as secret but
  type is not a pulumi output")`;
* `notPtrToStruct`: `errors.New("obj must be a pointer to a struct")`;
* `nilArrayObj`: `errors.New("obj must be a pointer to a slice of struct")`;
* `notPtrToSlice`: `fmt.Errorf("obj is of type %v, expected pointer to a
  slice")`;
* `notSettable field`: `fmt.Errorf("field '%s' is not settable to %v (%v)")`
  in `setFieldValue`;
* `unsupportedIface field`: `fmt.Errorf("unsupported interface %v for field:
  %s")`;
* `unsupportedKind field`: `fmt.Errorf("unsupported field name: %s, type:
  %v")`;
* `unsupportedJsonType`: `fmt.Errorf("unsupported type %v")` in
  `UnmarshalJSONConfig`;
* `jsonSyntaxError`: an `encoding/json` decode failure (invalid JSON text);
* `jsonTypeError`: an `encoding/json` `UnmarshalTypeError` (e.g. non-object
  JSON decoded into a map);
* `loadField f e`: `fmt.Errorf("failed to load json config for field '%s':
  %w")`;
* `unmarshalField f e`: `fmt.Errorf("failed to unmarshal json config for
  field '%s': %w")`;
* `unmarshalMapField f e`: `fmt.Errorf("failed to unmarshal json map for
  field '%s': %w")`;
* `unmarshalArrField f e`: `fmt.Errorf("failed to unmarshal json array for
  field '%s': %w")`;
* `unmarshalArrIdx i e`: `fmt.Errorf("failed to unmarshal json array at index
  %d: %w")`. -/
inductive GoErr where
  | missingConfig (key : String)
  | requiredJson (key : String)
  | secretNonOutput (field : String)
  | notPtrToStruct
  | nilArrayObj
  | notPtrToSlice
  | notSettable (field : String)
  | unsupportedIface (field : String)
  | unsupportedKind (field : String)
  | unsupportedJsonType
  | jsonSyntaxError
  | jsonTypeError
  | loadField (field : String) (e : GoErr)
  | unmarshalField (field : String) (e : GoErr)
  | unmarshalMapField (field : String) (e : GoErr)
  | unmarshalArrField (field : String) (e : GoErr)
  | unmarshalArrIdx (i : Nat) (e : GoErr)
deriving DecidableEq

/-- Outcome of running a piece of the Go binder: a normal result, a returned
`error`, or a runtime panic. -/
inductive UResult (α : Type) where
  | ok (a : α)
  | error (e : GoErr)
  | panicked (msg : String)
deriving DecidableEq

/-- Lookup in a decoded JSON object (`dict[fieldName]` on
`map[string]interface{}`; decoded maps have distinct keys, so first match
models map access). -/
def jlookup (dict : List (String × JVal)) (k : String) : Option JVal :=
  match dict with
  | [] => none
  | (k', v) :: rest => if k' = k then some v else jlookup rest k

/-- Go map assignment `m[k] = v` on an association list. -/
def upsert (m : List (String × JVal)) (k : String) (v : JVal) :
    List (String × JVal) :=
  match m with
  | [] => [(k, v)]
  | (k', v') :: rest => if k' = k then (k, v) :: rest else (k', v') :: upsert rest k v

/-- Go conversion `int(f)` of a `float64` to `int`: truncation toward zero
(`Int.tdiv` is T-division). -/
def truncQ (q : ℚ) : Int := q.num.tdiv q.den

/-- A successful dictionary lookup yields a structurally smaller JSON value
(used for the termination of the recursive binder). -/
theorem jlookup_sizeOf_lt {dict : List (String × JVal)} {k : String}
    {v : JVal} (h : jlookup dict k = some v) : sizeOf v < sizeOf dict := by
  induction dict with
  | nil => simp [jlookup] at h
  | cons p rest ih =>
    obtain ⟨k', v'⟩ := p
    rw [jlookup] at h
    by_cases hk : k' = k
    · rw [if_pos hk] at h
      cases h
      simp
      omega
    · rw [if_neg hk] at h
      have := ih h
      simp
      omega

/-- The Go function `setFieldValue(fv, val, fieldName)` (source lines
282-300).  `fv` is an addressable reflect value (so `CanSet()` holds at every
call site); `val` is a decoded JSON value.  Behaviour:
* matching kinds assign via `Convert` (string/bool/float64; struct never
  matches a decoded kind);
* the single exceptional case: a `reflect.Int` field receiving a `float64`
  truncates to integer; any other integer kind (here `int64`) mismatches and
  returns the "not settable" error;
* a JSON `null` makes `reflect.TypeOf(val).Kind()` dereference a nil
  `reflect.Type` and panic; the `recover` handler then itself panics on
  `fv.Elem()` (valid only on pointers/interfaces), so the panic escapes;
* every other kind mismatch returns the "not settable" error. -/
def setFieldValue (fv : FieldVal) (val : JVal) (fieldName : String) :
    UResult FieldVal :=
  match fv, val with
  | .vBool _, .jBool b => .ok (.vBool b)
  | .vInt _, .jNum q => .ok (.vInt (truncQ q))
  | .vFloat _, .jNum q => .ok (.vFloat q)
  | .vString _, .jStr s => .ok (.vString s)
  | _, .jNull => .panicked "setFieldValue: nil value"
  | _, _ => .error (.notSettable fieldName)

/-- Field-name resolution of `unmarshallJSONMap` (source lines 326-337): the
`config` tag wins, then the `json` tag; a field with neither is skipped.  The
`secret` tag is not consulted here. -/
def resolveJsonName (ff : FieldInfo) : Option String :=
  if ff.tagConfig ≠ "" then some ff.tagConfig
  else if ff.tagJson ≠ "" then some ff.tagJson
  else none

mutual
/-- The Go function `unmarshallJSONMap(dict, obj)` (source lines 302-409).
Validates that `obj` is a non-nil pointer to a struct, then binds `dict`
field by field (`umField`). -/
def unmarshallJSONMap (dict : List (String × JVal)) (obj : GoObj) :
    UResult GoObj :=
  match obj with
  | .ptrStruct (.mk fields) =>
    match umFields dict fields with
    | .ok fields' => .ok (.ptrStruct (.mk fields'))
    | .error e => .error e
    | .panicked m => .panicked m
  | _ => .error .notPtrToStruct

/-- The field loop of `unmarshallJSONMap` (source lines 317-406), returning
the updated field list. -/
def umFields (dict : List (String × JVal))
    (fields : List (FieldInfo × FieldVal)) :
    UResult (List (FieldInfo × FieldVal)) :=
  match fields with
  | [] => .ok []
  | (ff, fv) :: rest =>
    match umField dict ff fv with
    | .error e => .error e
    | .panicked m => .panicked m
    | .ok fv' =>
      match umFields dict rest with
      | .ok rest' => .ok ((ff, fv') :: rest')
      | .error e => .error e
      | .panicked m => .panicked m
termination_by (sizeOf dict, 1, sizeOf fields)

/-- One iteration of the `unmarshallJSONMap` field loop (source lines
318-405): the kind switch for a single field. -/
def umField (dict : List (String × JVal)) (ff : FieldInfo) (fv : FieldVal) :
    UResult FieldVal :=
  match resolveJsonName ff with
  | none => .ok fv
  | some fieldName =>
    match fv with
    | .vStrInput d =>
      -- case pulumi.StringInput (lines 342-346): assign when the key is
      -- present and the field is nil or holds a literal; `val.(string)`
      -- panics on a non-string JSON value.
      match jlookup dict fieldName with
      | none => .ok fv
      | some val =>
        if d.isLit || d.isNil then
          match val with
          | .jStr s => .ok (.vStrInput (.pLit s))
          | _ => .panicked "interface conversion: not a string"
        else .ok fv
    | .vBoolInput d =>
      -- case pulumi.BoolInput (lines 347-351): `val.(bool)`.
      match jlookup dict fieldName with
      | none => .ok fv
      | some val =>
        if d.isLit || d.isNil then
          match val with
          | .jBool b => .ok (.vBoolInput (.pLit b))
          | _ => .panicked "interface conversion: not a bool"
        else .ok fv
    | .vIntInput d =>
      -- case pulumi.IntInput (lines 352-356): `val.(int)` — decoded JSON
      -- numbers have dynamic type float64, never int, so the assertion
      -- panics for every JSON value under this key.
      match jlookup dict fieldName with
      | none => .ok fv
      | some _ =>
        if d.isLit || d.isNil then
          .panicked "interface conversion: not an int"
        else .ok fv
    | .vFloatInput d =>
      -- case pulumi.Float64Input (lines 357-361): `val.(float64)`.
      match jlookup dict fieldName with
      | none => .ok fv
      | some val =>
        if d.isLit || d.isNil then
          match val with
          | .jNum q => .ok (.vFloatInput (.pLit q))
          | _ => .panicked "interface conversion: not a float64"
        else .ok fv
    | .vStruct s =>
      -- struct kind (lines 365-372): skip when the key is absent; otherwise
      -- `dict[fieldName].(map[string]interface{})` panics unless the value is
      -- a JSON object, then recurses into the field (a non-nil *struct, so
      -- the validation of `unmarshallJSONMap` passes and the field loop
      -- runs).
      match h : jlookup dict fieldName with
      | none => .ok fv
      | some (.jObj d') =>
        match umFields d' s.fields with
        | .ok fs' => .ok (.vStruct (.mk fs'))
        | .error e => .error (.unmarshalMapField fieldName e)
        | .panicked m => .panicked m
      | some _ => .panicked "interface conversion: not a JSON object"
    | .vPtr z p =>
      -- pointer kind (lines 373-390): allocate when nil, then recurse into a
      -- JSON object; dispatch a JSON array to `unmarshallJSONArray`, which
      -- rejects the *struct argument with the "expected pointer to a slice"
      -- error; otherwise fall through to `setFieldValue` on the pointee (a
      -- struct, so every scalar mismatches; JSON null panics there), whose
      -- result — success or error — is returned for the whole call.
      match h : jlookup dict fieldName with
      | none => .ok fv
      | some (.jObj d') =>
        match umFields d' (p.getD z).fields with
        | .ok fs' => .ok (.vPtr z (some (.mk fs')))
        | .error e => .error (.unmarshalMapField fieldName e)
        | .panicked m => .panicked m
      | some (.jArr _) => .error (.unmarshalArrField fieldName .notPtrToSlice)
      | some .jNull => .panicked "setFieldValue: nil value"
      | some _ => .error (.notSettable fieldName)
    | .vSlice z xs =>
      -- slice kind (lines 391-397): initialize a nil slice with `MakeSlice`,
      -- then `dict[fieldName].([]interface{})` panics unless the value is a
      -- JSON array, which is bound by the `unmarshallJSONArray` loop
      -- (validation passes on the non-nil *slice).
      match h : jlookup dict fieldName with
      | none => .ok fv
      | some (.jArr a) =>
        match umArrLoop z a 0 (xs.getD []).length (xs.getD []) with
        | .ok l => .ok (.vSlice z (some l))
        | .error e => .error (.unmarshalArrField fieldName e)
        | .panicked m => .panicked m
      | some _ => .panicked "interface conversion: not a JSON array"
    | .vMap m =>
      -- map kind is listed in the structural case (line 365) but matches none
      -- of the inner branches, so the field is silently left unchanged.
      .ok (.vMap m)
    | .vBool b =>
      -- default branch (lines 399-405): scalar assignment through
      -- `setFieldValue`; its error is returned unwrapped.
      match jlookup dict fieldName with
      | none => .ok fv
      | some val => setFieldValue (.vBool b) val fieldName
    | .vInt i =>
      match jlookup dict fieldName with
      | none => .ok fv
      | some val => setFieldValue (.vInt i) val fieldName
    | .vInt64 i =>
      match jlookup dict fieldName with
      | none => .ok fv
      | some val => setFieldValue (.vInt64 i) val fieldName
    | .vFloat q =>
      match jlookup dict fieldName with
      | none => .ok fv
      | some val => setFieldValue (.vFloat q) val fieldName
    | .vString s =>
      match jlookup dict fieldName with
      | none => .ok fv
      | some val => setFieldValue (.vString s) val fieldName
termination_by (sizeOf dict, 0, 0)
decreasing_by
  all_goals simp_wf
  all_goals (apply Prod.Lex.left; have hlt := jlookup_sizeOf_lt h; simp at hlt; omega)

/-- The Go function `unmarshallJSONArray(arr, obj)` (source lines 414-435).
Validates that `obj` is a non-nil pointer to a slice, then runs the append
loop.  The updated slice is non-nil whenever an element was appended; with an
empty `arr` the slice (possibly nil) is unchanged. -/
def unmarshallJSONArray (arr : List JVal) (obj : GoObj) : UResult GoObj :=
  match obj with
  | .nilObj => .error .nilArrayObj
  | .ptrSlice z xs =>
    match umArrLoop z arr 0 (xs.getD []).length (xs.getD []) with
    | .ok l => .ok (.ptrSlice z (if arr.isEmpty then xs else some l))
    | .error e => .error e
    | .panicked m => .panicked m
  | _ => .error .notPtrToSlice

/-- The loop of `unmarshallJSONArray` (source lines 425-433): for the `i`-th
input element, append a zero element when index `initLen + i` is past the
current length, then bind the element (which `val.(map[string]interface{})`
requires to be a JSON object, panicking otherwise) into the slice element at
that index. -/
def umArrLoop (z : StructVal) (arr : List JVal) (i : Nat) (initLen : Nat)
    (cur : List StructVal) : UResult (List StructVal) :=
  match arr with
  | [] => .ok cur
  | val :: rest =>
    match val with
    | .jObj d =>
      let cur2 := if initLen + i ≥ cur.length then cur ++ [z] else cur
      match cur2[initLen + i]? with
      | none => .panicked "reflect: slice index out of range"
      | some el =>
        match umFields d el.fields with
        | .error e => .error (.unmarshalArrIdx i e)
        | .panicked m => .panicked m
        | .ok fs' => umArrLoop z rest (i + 1) initLen (cur2.set (initLen + i) (.mk fs'))
    | _ => .panicked "interface conversion: not a JSON object"
termination_by (sizeOf arr, 2, 0)
decreasing_by
  all_goals simp_wf
  all_goals (apply Prod.Lex.left; simp_arith)
end

/-- The Go function `UnmarshalJSONConfig(data, obj)` (source lines 437-455),
taken at the point after `json.Unmarshal(data, &tmp)`: `decoded` is the
decoded value of the JSON text `data` (`none` models a decode failure; the
`len(data) == 0` early return cannot fire from the binder, which never passes
empty data).  Dispatch: an array goes to `unmarshallJSONArray`, an object to
`unmarshallJSONMap`, anything else is the "unsupported type" error. -/
def UnmarshalJSONConfig (decoded : Option JVal) (obj : GoObj) : UResult GoObj :=
  match decoded with
  | none => .error .jsonSyntaxError
  | some (.jArr arr) => unmarshallJSONArray arr obj
  | some (.jObj dict) => unmarshallJSONMap dict obj
  | some _ => .error .unsupportedJsonType

/-- Modelled from the spec: the Configuration Source (§3, §4.1), the external
pulumi `config.Config` for one namespace.  `store` is the namespaced flat
key/value backing store (`cfg.Get` returns `""` for an absent key; `Require*`
fails hard with `MissingConfigError` when the key is absent).  `blob` is the
`encoding/json` decoding of the stored raw text of a key (`none` when the
text is not valid JSON); `encoding/json` itself is outside this repository.
`handle` gives the opaque state of the Deferred Value (output) that the
secret accessors create for a key. -/
structure Config where
  store : String → Option String
  blob : String → Option JVal
  handle : String → Nat

/-- Modelled from the spec: the typed boolean view of a stored string used by
the Configuration Source's bool accessors (canonical encoding: `"true"`;
everything else, including the zero-equivalent `""` of an absent key, reads
as `false`). -/
def parseBool (s : String) : Bool := s = "true"

/-- Accumulating decimal-digit parser over a character list (`none` on the
first non-digit). -/
def parseNatAux : List Char → Nat → Option Nat
  | [], acc => some acc
  | c :: rest, acc =>
    if c.isDigit then parseNatAux rest (acc * 10 + (c.toNat - 48)) else none

/-- Decimal parser over a non-empty character list. -/
def parseNatList : List Char → Option Nat
  | [] => none
  | c :: rest => parseNatAux (c :: rest) 0

/-- Modelled from the spec: the typed integer view of a stored string
(non-numeric text and the `""` of an absent key read as the zero value). -/
def parseInt (s : String) : Int :=
  match s.data with
  | '-' :: rest =>
    match parseNatList rest with
    | some n => -(n : Int)
    | none => 0
  | cs =>
    match parseNatList cs with
    | some n => (n : Int)
    | none => 0

/-- Modelled from the spec: the typed float view of a stored string, as a
decimal literal with an optional sign and fractional part (unparsable text
and the `""` of an absent key read as the zero value). -/
def parseFloat (s : String) : ℚ :=
  let neg : Bool := s.data.head? = some '-'
  let cs := if neg then s.data.tail else s.data
  let sign : ℚ := if neg then -1 else 1
  let intPart := cs.takeWhile (fun c => c != '.')
  let intVal : ℚ := ((parseNatList intPart).getD 0 : ℚ)
  match cs.dropWhile (fun c => c != '.') with
  | [] => sign * intVal
  | _ :: frac =>
    sign * (intVal + ((parseNatAux frac 0).getD 0 : ℚ) / ((10 : ℚ) ^ frac.length))

/-- Modelled from the spec: `cfg.Get(key)` — the optional string accessor,
returning the zero value `""` when the key is absent (§4.1). -/
def Config.get (cfg : Config) (key : String) : String := (cfg.store key).getD ""

/-- Modelled from the spec: `cfg.Require(key)` — the required string
accessor, failing hard with `MissingConfigError` when the key is absent
(§4.1). -/
def Config.require (cfg : Config) (key : String) : UResult String :=
  match cfg.store key with
  | none => .error (.missingConfig key)
  | some v => .ok v

/-- The `configParams` struct of the source (lines 15-19). -/
structure ConfigParams where
  fieldName : String
  isRequired : Bool
  isSecret : Bool

/-- The Go function `getConfigString` (source lines 21-27). -/
def getConfigString (cfg : Config) (params : ConfigParams) : UResult String :=
  if params.isRequired then cfg.require params.fieldName
  else .ok (cfg.get params.fieldName)

/-- The Go function `getConfigBool` (source lines 29-35): the typed accessors
parse the stored string (`RequireBool` fails only on absence). -/
def getConfigBool (cfg : Config) (params : ConfigParams) : UResult Bool :=
  if params.isRequired then
    match cfg.require params.fieldName with
    | .ok v => .ok (parseBool v)
    | .error e => .error e
    | .panicked m => .panicked m
  else .ok (parseBool (cfg.get params.fieldName))

/-- The Go function `getConfigInt` (source lines 37-43). -/
def getConfigInt (cfg : Config) (params : ConfigParams) : UResult Int :=
  if params.isRequired then
    match cfg.require params.fieldName with
    | .ok v => .ok (parseInt v)
    | .error e => .error e
    | .panicked m => .panicked m
  else .ok (parseInt (cfg.get params.fieldName))

/-- The Go function `getConfigFloat` (source lines 45-51). -/
def getConfigFloat (cfg : Config) (params : ConfigParams) : UResult ℚ :=
  if params.isRequired then
    match cfg.require params.fieldName with
    | .ok v => .ok (parseFloat v)
    | .error e => .error e
    | .panicked m => .panicked m
  else .ok (parseFloat (cfg.get params.fieldName))

/-- The Go function `getSecretString` (source lines 53-59).  Modelled from
the spec for the external accessors (§4.1): the secret accessors always
return a Deferred Value (an output, never unwrapped synchronously), and the
required variant fails hard when the key is absent. -/
def getSecretString (cfg : Config) (params : ConfigParams) :
    UResult (PInput String) :=
  if params.isRequired then
    match cfg.require params.fieldName with
    | .ok _ => .ok (.pOutput (cfg.handle params.fieldName))
    | .error e => .error e
    | .panicked m => .panicked m
  else .ok (.pOutput (cfg.handle params.fieldName))

/-- The Go function `getSecretBool` (source lines 61-67); see
`getSecretString`. -/
def getSecretBool (cfg : Config) (params : ConfigParams) :
    UResult (PInput Bool) :=
  if params.isRequired then
    match cfg.require params.fieldName with
    | .ok _ => .ok (.pOutput (cfg.handle params.fieldName))
    | .error e => .error e
    | .panicked m => .panicked m
  else .ok (.pOutput (cfg.handle params.fieldName))

/-- The Go function `getSecretInt` (source lines 69-75); see
`getSecretString`. -/
def getSecretInt (cfg : Config) (params : ConfigParams) :
    UResult (PInput Int) :=
  if params.isRequired then
    match cfg.require params.fieldName with
    | .ok _ => .ok (.pOutput (cfg.handle params.fieldName))
    | .error e => .error e
    | .panicked m => .panicked m
  else .ok (.pOutput (cfg.handle params.fieldName))

/-- The Go function `getSecretFloat` (source lines 77-83); see
`getSecretString`. -/
def getSecretFloat (cfg : Config) (params : ConfigParams) :
    UResult (PInput ℚ) :=
  if params.isRequired then
    match cfg.require params.fieldName with
    | .ok _ => .ok (.pOutput (cfg.handle params.fieldName))
    | .error e => .error e
    | .panicked m => .panicked m
  else .ok (.pOutput (cfg.handle params.fieldName))

/-- A Go `interface{}` value as passed for the `curr` parameter of
`loadJsonConfig`.  Only an untyped nil interface compares equal to `nil`; an
interface produced by `reflect.Value.Interface()` always carries a concrete
type and therefore compares unequal to `nil` even when the wrapped map or
pointer is itself nil (the Go typed-nil rule). -/
inductive GoIface where
  | untypedNil
  | wrapped (isNilInside : Bool)

/-- The Go comparison `curr == nil` on an `interface{}`. -/
def GoIface.eqNil : GoIface → Bool
  | .untypedNil => true
  | .wrapped _ => false

/-- Error result of `loadJsonConfig`: either the "config %s is required"
error or the `ErrJsonEmpty` sentinel. -/
inductive LoadErr where
  | requiredMissing (key : String)
  | jsonEmpty

/-- The Go function `loadJsonConfig(cfg, fieldName, isRequired, curr)`
(source lines 85-93): returns the raw JSON text of the key, the required
error when the key is absent, required, and `curr == nil`, or the
`ErrJsonEmpty` sentinel when the key is absent or empty. -/
def loadJsonConfig (cfg : Config) (fieldName : String) (isRequired : Bool)
    (curr : GoIface) : Except LoadErr String :=
  let cfgJson := cfg.get fieldName
  if isRequired && curr.eqNil && decide (cfgJson = "") then
    .error (.requiredMissing fieldName)
  else if cfgJson = "" then .error .jsonEmpty
  else .ok cfgJson

/-- Field-name and secrecy resolution of `ExtractConfig` (source lines
120-135): the `config` tag wins, then the `json` tag, then the `secret` tag
(which alone sets `isSecret`); a field with none of the three is skipped. -/
def resolveFieldName (ff : FieldInfo) : Option (String × Bool) :=
  if ff.tagConfig ≠ "" then some (ff.tagConfig, false)
  else if ff.tagJson ≠ "" then some (ff.tagJson, false)
  else if ff.tagSecret ≠ "" then some (ff.tagSecret, true)
  else none

/-- One iteration of the `ExtractConfig` field loop (source lines 115-277):
the kind switch for a single field.

Notes tied to the source:
* Bool (lines 145-153): `params.isRequired = isRequired && fv.Bool()` — the
  required lookup is gated on the current value being `true` (unlike the
  other scalar kinds, which gate on the current value being zero); the
  config lookup runs before the secret check, and the value is only written
  when it is `true`.
* Int family (lines 154-162) / Float (163-171) / String (172-180): required
  gated on the current value being zero; write only a non-zero read.
* Map (lines 181-191): `fv.Interface()` wraps the map in a non-nil
  interface even when the map itself is nil, so the `curr == nil` test of
  `loadJsonConfig` is false; `json.Unmarshal` into the map merges the
  decoded object's keys into the existing entries (allocating when nil),
  no-ops on JSON `null`, and returns an `UnmarshalTypeError` for any other
  JSON value.
* Struct / Ptr / Slice (lines 192-223): `val` is always a non-nil pointer
  (`fv.Addr()`, the field's pointer itself, or `reflect.New(...)`), so
  `val.Interface() == nil` is false; when the field is zero `reflect.New`
  produces exactly the zero value again, so the bind target is the current
  field value (for a nil pointer field, the pointee type's zero value).
  `UnmarshalJSONConfig` then dispatches the decoded blob: a JSON object runs
  the `unmarshallJSONMap` field loop on the target (a decoded array would be
  handed to `unmarshallJSONArray`, which rejects a *struct with the
  "expected pointer to a slice" error, and a decoded object handed a *slice
  is rejected by `unmarshallJSONMap` with "obj must be a pointer to a
  struct"); on success the result is stored back into the field.
* Interface (lines 224-273): the four pulumi input types; requiredness is
  gated on the field being nil or holding the zero literal; the secret path
  always stores the output returned by the secret accessor; the non-secret
  path stores a literal wrapper only for a non-zero read when the field is
  nil or already holds a literal (an unresolved output is never
  overwritten). -/
def extractField (cfg : Config) (ff : FieldInfo) (fv : FieldVal) :
    UResult FieldVal :=
  match resolveFieldName ff with
  | none => .ok fv
  | some (fieldName, isSecret) =>
    let isRequired := ff.required
    match fv with
    | .vBool b =>
      match getConfigBool cfg ⟨fieldName, isRequired && b, isSecret⟩ with
      | .error e => .error e
      | .panicked m => .panicked m
      | .ok val =>
        if isSecret then .error (.secretNonOutput fieldName)
        else if val then .ok (.vBool val) else .ok (.vBool b)
    | .vInt i =>
      match getConfigInt cfg ⟨fieldName, isRequired && decide (i = 0), isSecret⟩ with
      | .error e => .error e
      | .panicked m => .panicked m
      | .ok val =>
        if isSecret then .error (.secretNonOutput fieldName)
        else if val ≠ 0 then .ok (.vInt val) else .ok (.vInt i)
    | .vInt64 i =>
      match getConfigInt cfg ⟨fieldName, isRequired && decide (i = 0), isSecret⟩ with
      | .error e => .error e
      | .panicked m => .panicked m
      | .ok val =>
        if isSecret then .error (.secretNonOutput fieldName)
        else if val ≠ 0 then .ok (.vInt64 val) else .ok (.vInt64 i)
    | .vFloat q =>
      match getConfigFloat cfg ⟨fieldName, isRequired && decide (q = 0), isSecret⟩ with
      | .error e => .error e
      | .panicked m => .panicked m
      | .ok val =>
        if isSecret then .error (.secretNonOutput fieldName)
        else if val ≠ 0 then .ok (.vFloat val) else .ok (.vFloat q)
    | .vString s =>
      match getConfigString cfg ⟨fieldName, isRequired && decide (s = ""), isSecret⟩ with
      | .error e => .error e
      | .panicked m => .panicked m
      | .ok val =>
        if isSecret then .error (.secretNonOutput fieldName)
        else if val ≠ "" then .ok (.vString val) else .ok (.vString s)
    | .vMap m =>
      match loadJsonConfig cfg fieldName isRequired (.wrapped m.isNone) with
      | .error .jsonEmpty => .ok (.vMap m)
      | .error (.requiredMissing k) => .error (.loadField fieldName (.requiredJson k))
      | .ok _raw =>
        match cfg.blob fieldName with
        | none => .error (.unmarshalField fieldName .jsonSyntaxError)
        | some (.jObj kvs) =>
          .ok (.vMap (some (kvs.foldl (fun acc kv => upsert acc kv.1 kv.2) (m.getD []))))
        | some .jNull => .ok (.vMap m)
        | some _ => .error (.unmarshalField fieldName .jsonTypeError)
    | .vStruct s =>
      match loadJsonConfig cfg fieldName isRequired (.wrapped false) with
      | .error .jsonEmpty => .ok (.vStruct s)
      | .error (.requiredMissing k) => .error (.loadField fieldName (.requiredJson k))
      | .ok _raw =>
        match cfg.blob fieldName with
        | none => .error (.unmarshalField fieldName .jsonSyntaxError)
        | some (.jObj d) =>
          match umFields d s.fields with
          | .ok fs' => .ok (.vStruct (.mk fs'))
          | .error e => .error (.unmarshalField fieldName e)
          | .panicked m => .panicked m
        | some (.jArr _) => .error (.unmarshalField fieldName .notPtrToSlice)
        | some _ => .error (.unmarshalField fieldName .unsupportedJsonType)
    | .vPtr z p =>
      match loadJsonConfig cfg fieldName isRequired (.wrapped false) with
      | .error .jsonEmpty => .ok (.vPtr z p)
      | .error (.requiredMissing k) => .error (.loadField fieldName (.requiredJson k))
      | .ok _raw =>
        match cfg.blob fieldName with
        | none => .error (.unmarshalField fieldName .jsonSyntaxError)
        | some (.jObj d) =>
          match umFields d (p.getD z).fields with
          | .ok fs' => .ok (.vPtr z (some (.mk fs')))
          | .error e => .error (.unmarshalField fieldName e)
          | .panicked m => .panicked m
        | some (.jArr _) => .error (.unmarshalField fieldName .notPtrToSlice)
        | some _ => .error (.unmarshalField fieldName .unsupportedJsonType)
    | .vSlice z xs =>
      match loadJsonConfig cfg fieldName isRequired (.wrapped false) with
      | .error .jsonEmpty => .ok (.vSlice z xs)
      | .error (.requiredMissing k) => .error (.loadField fieldName (.requiredJson k))
      | .ok _raw =>
        match cfg.blob fieldName with
        | none => .error (.unmarshalField fieldName .jsonSyntaxError)
        | some (.jArr a) =>
          match umArrLoop z a 0 (xs.getD []).length (xs.getD []) with
          | .ok l => .ok (.vSlice z (if a.isEmpty then xs else some l))
          | .error e => .error (.unmarshalField fieldName e)
          | .panicked m => .panicked m
        | some (.jObj _) => .error (.unmarshalField fieldName .notPtrToStruct)
        | some _ => .error (.unmarshalField fieldName .unsupportedJsonType)
    | .vStrInput d =>
      let req := isRequired && (d.isNil || (d.isLit && decide (d = .pLit "")))
      if isSecret then
        match getSecretString cfg ⟨fieldName, req, isSecret⟩ with
        | .error e => .error e
        | .panicked m => .panicked m
        | .ok out => .ok (.vStrInput out)
      else
        match getConfigString cfg ⟨fieldName, req, isSecret⟩ with
        | .error e => .error e
        | .panicked m => .panicked m
        | .ok val =>
          if val ≠ "" && (d.isLit || d.isNil) then .ok (.vStrInput (.pLit val))
          else .ok (.vStrInput d)
    | .vBoolInput d =>
      let req := isRequired && (d.isNil || (d.isLit && decide (d = .pLit false)))
      if isSecret then
        match getSecretBool cfg ⟨fieldName, req, isSecret⟩ with
        | .error e => .error e
        | .panicked m => .panicked m
        | .ok out => .ok (.vBoolInput out)
      else
        match getConfigBool cfg ⟨fieldName, req, isSecret⟩ with
        | .error e => .error e
        | .panicked m => .panicked m
        | .ok val =>
          if val && (d.isLit || d.isNil) then .ok (.vBoolInput (.pLit val))
          else .ok (.vBoolInput d)
    | .vIntInput d =>
      let req := isRequired && (d.isNil || (d.isLit && decide (d = .pLit 0)))
      if isSecret then
        match getSecretInt cfg ⟨fieldName, req, isSecret⟩ with
        | .error e => .error e
        | .panicked m => .panicked m
        | .ok out => .ok (.vIntInput out)
      else
        match getConfigInt cfg ⟨fieldName, req, isSecret⟩ with
        | .error e => .error e
        | .panicked m => .panicked m
        | .ok val =>
          if val ≠ 0 && (d.isLit || d.isNil) then .ok (.vIntInput (.pLit val))
          else .ok (.vIntInput d)
    | .vFloatInput d =>
      let req := isRequired && (d.isNil || (d.isLit && decide (d = .pLit 0)))
      if isSecret then
        match getSecretFloat cfg ⟨fieldName, req, isSecret⟩ with
        | .error e => .error e
        | .panicked m => .panicked m
        | .ok out => .ok (.vFloatInput out)
      else
        match getConfigFloat cfg ⟨fieldName, req, isSecret⟩ with
        | .error e => .error e
        | .panicked m => .panicked m
        | .ok val =>
          if val ≠ 0 && (d.isLit || d.isNil) then .ok (.vFloatInput (.pLit val))
          else .ok (.vFloatInput d)

/-- The field loop of `ExtractConfig` (source lines 115-277), aborting at the
first failing field and otherwise returning the updated field list. -/
def extractFields (cfg : Config) :
    List (FieldInfo × FieldVal) → UResult (List (FieldInfo × FieldVal))
  | [] => .ok []
  | (ff, fv) :: rest =>
    match extractField cfg ff fv with
    | .error e => .error e
    | .panicked m => .panicked m
    | .ok fv' =>
      match extractFields cfg rest with
      | .ok rest' => .ok ((ff, fv') :: rest')
      | .error e => .error e
      | .panicked m => .panicked m

/-- The Go function `ExtractConfig(ctx, namespace, obj)` (source lines
101-280).  `cfg` is the namespaced Configuration Source built by
`config.New(ctx, namespace)`.  Any argument that is not a non-nil pointer to
a struct is rejected up front (lines 104-109). -/
def ExtractConfig (cfg : Config) (obj : GoObj) : UResult GoObj :=
  match obj with
  | .ptrStruct (.mk fields) =>
    match extractFields cfg fields with
    | .ok fields' => .ok (.ptrStruct (.mk fields'))
    | .error e => .error e
    | .panicked m => .panicked m
  | _ => .error .notPtrToStruct

mutual
/-- Standard `encoding/json` marshalling of a modelled field value, used for
the non-output fields that `MarshalJSONConfig` stores unchanged into its map
(source line 485).  A literal wrapper (`pulumi.String` etc.) is a scalar
type and marshals as its scalar; an output struct has no exported fields and
marshals as an empty object; a nil interface, map, pointer or slice marshals
as `null`. -/
def goJsonMarshalVal : FieldVal → JVal
  | .vBool b => .jBool b
  | .vInt i => .jNum (i : ℚ)
  | .vInt64 i => .jNum (i : ℚ)
  | .vFloat q => .jNum q
  | .vString s => .jStr s
  | .vMap none => .jNull
  | .vMap (some kvs) => .jObj kvs
  | .vStruct s => .jObj (goJsonMarshalStruct s)
  | .vPtr _ none => .jNull
  | .vPtr _ (some s) => .jObj (goJsonMarshalStruct s)
  | .vSlice _ none => .jNull
  | .vSlice _ (some xs) => .jArr (goJsonMarshalSlice xs)
  | .vStrInput .pNil => .jNull
  | .vStrInput (.pLit s) => .jStr s
  | .vStrInput (.pOutput _) => .jObj []
  | .vBoolInput .pNil => .jNull
  | .vBoolInput (.pLit b) => .jBool b
  | .vBoolInput (.pOutput _) => .jObj []
  | .vIntInput .pNil => .jNull
  | .vIntInput (.pLit i) => .jNum (i : ℚ)
  | .vIntInput (.pOutput _) => .jObj []
  | .vFloatInput .pNil => .jNull
  | .vFloatInput (.pLit q) => .jNum q
  | .vFloatInput (.pOutput _) => .jObj []

/-- Standard `encoding/json` marshalling of a struct: one key per field, from the
`json` tag or the field name (tag options such as `omitempty` are not used by
the structs of this repository's model universe). -/
def goJsonMarshalStruct : StructVal → List (String × JVal)
  | .mk fields => goJsonMarshalFields fields

/-- Marshalling of a field list; see `goJsonMarshalStruct`. -/
def goJsonMarshalFields : List (FieldInfo × FieldVal) → List (String × JVal)
  | [] => []
  | (ff, fv) :: rest =>
    (if ff.tagJson ≠ "" then ff.tagJson else ff.name, goJsonMarshalVal fv) ::
      goJsonMarshalFields rest

/-- Marshalling of a slice of structs; see `goJsonMarshalStruct`. -/
def goJsonMarshalSlice : List StructVal → List JVal
  | [] => []
  | s :: rest => .jObj (goJsonMarshalStruct s) :: goJsonMarshalSlice rest
end

/-- The map key `MarshalJSONConfig` uses for a field (source lines 471-474):
the `json` tag, or the field's name when the tag is absent. -/
def displayKey (ff : FieldInfo) : String :=
  if ff.tagJson ≠ "" then ff.tagJson else ff.name

/-- The value `MarshalJSONConfig` stores under a field's key (source lines
475-486): a field whose runtime value is one of the four pulumi output types
becomes the fixed placeholder string of its capability; every other field is
stored (and finally marshalled by `json.Marshal`) as its own value. -/
def displayVal (fv : FieldVal) : JVal :=
  match fv with
  | .vStrInput (.pOutput _) => .jStr "[StringOutput]"
  | .vBoolInput (.pOutput _) => .jStr "[BoolOutput]"
  | .vIntInput (.pOutput _) => .jStr "[IntOutput]"
  | .vFloatInput (.pOutput _) => .jStr "[Float64Output]"
  | v => goJsonMarshalVal v

/-- The Go function `MarshalJSONConfig(obj)` (source lines 457-489) on its
struct path (the entry point also accepts a pointer to a struct and rejects
anything else).  The built `processedMetadata` map is modelled as a function
from keys to optional values, each field assignment overwriting the previous
binding of its key. -/
def MarshalJSONConfig (s : StructVal) : String → Option JVal :=
  s.fields.foldl
    (fun acc p k => if k = displayKey p.1 then some (displayVal p.2) else acc k)
    (fun _ => none)

/-- Whether a field's runtime value is one of the four deferred output
wrappers (`pulumi.StringOutput`, `BoolOutput`, `IntOutput`,
`Float64Output`). -/
def isOutputVal : FieldVal → Bool
  | .vStrInput (.pOutput _) => true
  | .vBoolInput (.pOutput _) => true
  | .vIntInput (.pOutput _) => true
  | .vFloatInput (.pOutput _) => true
  | _ => false

/-- The fixed placeholder string for a deferred output's capability. -/
def placeholderOf : FieldVal → String
  | .vStrInput _ => "[StringOutput]"
  | .vBoolInput _ => "[BoolOutput]"
  | .vIntInput _ => "[IntOutput]"
  | .vFloatInput _ => "[Float64Output]"
  | _ => ""

/-- Replace the opaque state of a deferred output by the fixed handle `0`,
leaving any other value unchanged. -/
def eraseOutputHandleVal : FieldVal → FieldVal
  | .vStrInput (.pOutput _) => .vStrInput (.pOutput 0)
  | .vBoolInput (.pOutput _) => .vBoolInput (.pOutput 0)
  | .vIntInput (.pOutput _) => .vIntInput (.pOutput 0)
  | .vFloatInput (.pOutput _) => .vFloatInput (.pOutput 0)
  | v => v

/-- Replace the opaque state of every deferred output held directly in a
field of the struct by the fixed handle `0`, leaving everything else
unchanged: two structs that differ only in the deferred values of their
output fields have the same erasure. -/
def eraseOutputHandles (s : StructVal) : StructVal :=
  .mk (s.fields.map (fun p => (p.1, eraseOutputHandleVal p.2)))

/-- A Configuration Source with no entries at all. -/
def cfgEmpty : Config := ⟨fun _ => none, fun _ => none, fun _ => 0⟩

/-- Whether a field value is of one of the five modelled scalar kinds
(bool, the integer family, the float family, string). -/
def isScalarKind : FieldVal → Bool
  | .vBool _ => true
  | .vInt _ => true
  | .vInt64 _ => true
  | .vFloat _ => true
  | .vString _ => true
  | _ => false

/-- C10: any argument that is not a non-nil pointer to a struct makes both
`ExtractConfig` and `unmarshallJSONMap` return the "obj must be a pointer to
a struct" error.  The configuration source and the dictionary are quantified
on the outside, so the result does not depend on them (no configuration key
is read), and no updated object is produced (the argument is not mutated). -/
theorem c10_entry_guard (cfg : Config) (dict : List (String × JVal))
    (obj : GoObj) (h : ∀ s : StructVal, obj ≠ .ptrStruct s) :
    ExtractConfig cfg obj = .error .notPtrToStruct ∧
    unmarshallJSONMap dict obj = .error .notPtrToStruct := by
  cases obj with
  | ptrStruct s => exact absurd rfl (h s)
  | nilObj => exact ⟨rfl, by simp [unmarshallJSONMap]⟩
  | nonPtr => exact ⟨rfl, by simp [unmarshallJSONMap]⟩
  | nilPtr => exact ⟨rfl, by simp [unmarshallJSONMap]⟩
  | ptrOther => exact ⟨rfl, by simp [unmarshallJSONMap]⟩
  | ptrSlice z xs => exact ⟨rfl, by simp [unmarshallJSONMap]⟩

/-- Witness for C10 at the untyped-nil argument. -/
theorem c10_entry_guard_witness :
    ExtractConfig cfgEmpty .nilObj = .error .notPtrToStruct ∧
    unmarshallJSONMap [] .nilObj = .error .notPtrToStruct :=
  c10_entry_guard cfgEmpty [] .nilObj (fun _ h => by cases h)

/-- C9 counterexample: an `int64` field (a member of the integer family)
receiving the floating-point JSON number `7/2` is rejected with the
settability error instead of having the truncation `3` stored — the
int-from-float coercion applies to reflect kind `int` only. -/
theorem c9_counterexample :
    setFieldValue (.vInt64 0) (.jNum ((7 : ℚ) / 2)) "count" =
      .error (.notSettable "count") := rfl

/-- C9 amended: in `setFieldValue` the int-from-float truncation applies
exactly to fields of reflect kind `int`; an `int64` field (and any other
non-`int` integer kind) receiving a JSON number fails with the settability
error naming the field, as does any other non-null kind mismatch (shown here
for string and bool fields), while a JSON `null` panics inside the recovery
handler rather than returning an error. -/
theorem c9_int_from_float_truncation (q : ℚ) (i j : Int) (s : String)
    (b : Bool) (name : String) :
    setFieldValue (.vInt i) (.jNum q) name = .ok (.vInt (truncQ q)) ∧
    setFieldValue (.vInt64 j) (.jNum q) name = .error (.notSettable name) ∧
    setFieldValue (.vString s) (.jNum q) name = .error (.notSettable name) ∧
    setFieldValue (.vBool b) (.jNum q) name = .error (.notSettable name) ∧
    setFieldValue (.vInt i) .jNull name = .panicked "setFieldValue: nil value" :=
  ⟨rfl, rfl, rfl, rfl, rfl⟩

/-- The required structural fields of the C4 scenario: a zero-valued
`Database` struct field tagged `database` and required, plus required
zero-valued fields of the other structural kinds. -/
def c4Target : StructVal :=
  .mk [(⟨"Database", "", "database", "", true⟩, .vStruct (.mk [])),
       (⟨"Metadata", "", "metadata", "", true⟩, .vMap none),
       (⟨"Provider", "", "provider", "", true⟩, .vPtr (.mk []) none),
       (⟨"Users", "", "users", "", true⟩, .vSlice (.mk []) none)]

/-- C4: the code does NOT fail when a required structural field is zero and
the Configuration Source has no entry for its key — binding succeeds and
leaves every field untouched.  The `curr == nil` conjunct of the required
check in `loadJsonConfig` is never true, because both call sites wrap a
typed value (`fv.Interface()` of a map, or a non-nil `*struct` from
`reflect.New`/`Addr`) whose interface is non-nil even when the underlying
map is nil, so the "config %s is required" error is unreachable. -/
theorem c4_required_structural_missing_no_error :
    ExtractConfig cfgEmpty (.ptrStruct c4Target) = .ok (.ptrStruct c4Target) := rfl

/-- C2: the divergent Bool case next to a conforming Int case.  A required
bool field whose current value is `true` (non-zero) triggers the hard
`Require` lookup (`params.isRequired = isRequired && fv.Bool()`) and fails
with the missing-config error on an empty Configuration Source, while a
required int field holding the non-zero `7` performs only the optional
lookup and keeps its value, as the claim describes. -/
theorem c2_bool_required_gate_inverted :
    ExtractConfig cfgEmpty
        (.ptrStruct (.mk [(⟨"Flag", "", "flag", "", true⟩, .vBool true)])) =
      .error (.missingConfig "flag") ∧
    ExtractConfig cfgEmpty
        (.ptrStruct (.mk [(⟨"Count", "", "count", "", true⟩, .vInt 7)])) =
      .ok (.ptrStruct (.mk [(⟨"Count", "", "count", "", true⟩, .vInt 7)])) :=
  ⟨rfl, rfl⟩

/-- A typed accessor either reads optionally (yielding the parsed stored
string, with `""` for an absent key) or fails hard with the missing-config
error for its key. -/
theorem getConfigBool_cases (cfg : Config) (p : ConfigParams) :
    getConfigBool cfg p = .ok (parseBool (cfg.get p.fieldName)) ∨
    getConfigBool cfg p = .error (.missingConfig p.fieldName) := by
  unfold getConfigBool Config.require Config.get
  by_cases h : p.isRequired = true
  · simp only [h, if_true]
    cases cfg.store p.fieldName with
    | none => exact Or.inr rfl
    | some s => exact Or.inl rfl
  · simp only [eq_false_of_ne_true h, if_false]
    exact Or.inl rfl

/-- Analog of `getConfigBool_cases` for the int accessor. -/
theorem getConfigInt_cases (cfg : Config) (p : ConfigParams) :
    getConfigInt cfg p = .ok (parseInt (cfg.get p.fieldName)) ∨
    getConfigInt cfg p = .error (.missingConfig p.fieldName) := by
  unfold getConfigInt Config.require Config.get
  by_cases h : p.isRequired = true
  · simp only [h, if_true]
    cases cfg.store p.fieldName with
    | none => exact Or.inr rfl
    | some s => exact Or.inl rfl
  · simp only [eq_false_of_ne_true h, if_false]
    exact Or.inl rfl

/-- Analog of `getConfigBool_cases` for the float accessor. -/
theorem getConfigFloat_cases (cfg : Config) (p : ConfigParams) :
    getConfigFloat cfg p = .ok (parseFloat (cfg.get p.fieldName)) ∨
    getConfigFloat cfg p = .error (.missingConfig p.fieldName) := by
  unfold getConfigFloat Config.require Config.get
  by_cases h : p.isRequired = true
  · simp only [h, if_true]
    cases cfg.store p.fieldName with
    | none => exact Or.inr rfl
    | some s => exact Or.inl rfl
  · simp only [eq_false_of_ne_true h, if_false]
    exact Or.inl rfl

/-- Analog of `getConfigBool_cases` for the string accessor. -/
theorem getConfigString_cases (cfg : Config) (p : ConfigParams) :
    getConfigString cfg p = .ok (cfg.get p.fieldName) ∨
    getConfigString cfg p = .error (.missingConfig p.fieldName) := by
  unfold getConfigString Config.require Config.get
  by_cases h : p.isRequired = true
  · simp only [h, if_true]
    cases cfg.store p.fieldName with
    | none => exact Or.inr rfl
    | some s => exact Or.inl rfl
  · simp only [eq_false_of_ne_true h, if_false]
    exact Or.inl rfl

/-- A target whose fields of every structural kind are named by a `secret`
tag. -/
def c6Target : StructVal :=
  .mk [(⟨"Metadata", "", "", "meta", false⟩, .vMap none),
       (⟨"Database", "", "", "db", false⟩, .vStruct (.mk [])),
       (⟨"Provider", "", "", "prov", false⟩, .vPtr (.mk []) none),
       (⟨"Users", "", "", "users", false⟩, .vSlice (.mk []) none)]

/-- C6 counterexample: a `secret` tag on a structural field (map, struct,
pointer, slice) does NOT make `ExtractConfig` fail — the structural branches
never consult the secret flag, and binding succeeds leaving the fields
untouched.  The secret-on-non-deferred error exists only in the four scalar
branches. -/
theorem c6_counterexample :
    ExtractConfig cfgEmpty (.ptrStruct c6Target) = .ok (.ptrStruct c6Target) := rfl

/-- C6 amended: only a scalar-kind field (bool, integer family, float,
string) named by a `secret` tag makes `ExtractConfig` fail; the failure is
the secret-on-non-deferred error naming the field, except that the config
lookup runs first, so a required lookup on an absent key surfaces as the
missing-config error for the same name instead.  Structural kinds ignore the
secret flag entirely (see the counterexample). -/
theorem c6_secret_scalar_fails (cfg : Config) (ff : FieldInfo) (v : FieldVal)
    (rest : List (FieldInfo × FieldVal)) (name : String)
    (hres : resolveFieldName ff = some (name, true))
    (hscalar : isScalarKind v = true) :
    ∃ e, ExtractConfig cfg (.ptrStruct (.mk ((ff, v) :: rest))) = .error e ∧
      (e = .secretNonOutput name ∨ e = .missingConfig name) := by
  have hf : ∃ e, extractField cfg ff v = .error e ∧
      (e = .secretNonOutput name ∨ e = .missingConfig name) := by
    cases v with
    | vBool b =>
      simp only [extractField, hres]
      rcases getConfigBool_cases cfg ⟨name, ff.required && b, true⟩ with hg | hg <;>
        simp only [hg]
      · exact ⟨_, rfl, Or.inl rfl⟩
      · exact ⟨_, rfl, Or.inr rfl⟩
    | vInt i =>
      simp only [extractField, hres]
      rcases getConfigInt_cases cfg ⟨name, ff.required && decide (i = 0), true⟩ with hg | hg <;>
        simp only [hg]
      · exact ⟨_, rfl, Or.inl rfl⟩
      · exact ⟨_, rfl, Or.inr rfl⟩
    | vInt64 i =>
      simp only [extractField, hres]
      rcases getConfigInt_cases cfg ⟨name, ff.required && decide (i = 0), true⟩ with hg | hg <;>
        simp only [hg]
      · exact ⟨_, rfl, Or.inl rfl⟩
      · exact ⟨_, rfl, Or.inr rfl⟩
    | vFloat q =>
      simp only [extractField, hres]
      rcases getConfigFloat_cases cfg ⟨name, ff.required && decide (q = 0), true⟩ with hg | hg <;>
        simp only [hg]
      · exact ⟨_, rfl, Or.inl rfl⟩
      · exact ⟨_, rfl, Or.inr rfl⟩
    | vString s =>
      simp only [extractField, hres]
      rcases getConfigString_cases cfg ⟨name, ff.required && decide (s = ""), true⟩ with hg | hg <;>
        simp only [hg]
      · exact ⟨_, rfl, Or.inl rfl⟩
      · exact ⟨_, rfl, Or.inr rfl⟩
    | vMap m => simp [isScalarKind] at hscalar
    | vStruct s => simp [isScalarKind] at hscalar
    | vPtr z p => simp [isScalarKind] at hscalar
    | vSlice z xs => simp [isScalarKind] at hscalar
    | vStrInput d => simp [isScalarKind] at hscalar
    | vBoolInput d => simp [isScalarKind] at hscalar
    | vIntInput d => simp [isScalarKind] at hscalar
    | vFloatInput d => simp [isScalarKind] at hscalar
  obtain ⟨e, he, hor⟩ := hf
  refine ⟨e, ?_, hor⟩
  simp only [ExtractConfig, extractFields, he]

/-- Witness for C6 amended: a non-required string field named by the secret
tag `pass` fails with the secret-on-non-deferred error. -/
theorem c6_secret_scalar_fails_witness :
    resolveFieldName ⟨"Password", "", "", "pass", false⟩ = some ("pass", true) ∧
    isScalarKind (.vString "") = true ∧
    ∃ e, ExtractConfig cfgEmpty
        (.ptrStruct (.mk [(⟨"Password", "", "", "pass", false⟩, .vString "")])) =
          .error e ∧
      (e = .secretNonOutput "pass" ∨ e = .missingConfig "pass") :=
  ⟨rfl, rfl,
    c6_secret_scalar_fails cfgEmpty ⟨"Password", "", "", "pass", false⟩
      (.vString "") [] "pass" rfl rfl⟩


/-- A successful string accessor call returns the stored string (or `""`). -/
theorem getConfigString_ok_val (cfg : Config) (k : String) (r s : Bool)
    (val : String) (h : getConfigString cfg ⟨k, r, s⟩ = .ok val) :
    val = cfg.get k := by
  rcases getConfigString_cases cfg ⟨k, r, s⟩ with hg | hg <;> rw [h] at hg
  · injection hg
  · cases hg

/-- A successful bool accessor call returns the parsed stored string. -/
theorem getConfigBool_ok_val (cfg : Config) (k : String) (r s : Bool)
    (val : Bool) (h : getConfigBool cfg ⟨k, r, s⟩ = .ok val) :
    val = parseBool (cfg.get k) := by
  rcases getConfigBool_cases cfg ⟨k, r, s⟩ with hg | hg <;> rw [h] at hg
  · injection hg
  · cases hg

/-- A successful int accessor call returns the parsed stored string. -/
theorem getConfigInt_ok_val (cfg : Config) (k : String) (r s : Bool)
    (val : Int) (h : getConfigInt cfg ⟨k, r, s⟩ = .ok val) :
    val = parseInt (cfg.get k) := by
  rcases getConfigInt_cases cfg ⟨k, r, s⟩ with hg | hg <;> rw [h] at hg
  · injection hg
  · cases hg

/-- A successful float accessor call returns the parsed stored string. -/
theorem getConfigFloat_ok_val (cfg : Config) (k : String) (r s : Bool)
    (val : ℚ) (h : getConfigFloat cfg ⟨k, r, s⟩ = .ok val) :
    val = parseFloat (cfg.get k) := by
  rcases getConfigFloat_cases cfg ⟨k, r, s⟩ with hg | hg <;> rw [h] at hg
  · injection hg
  · cases hg

/-- A nil test on the deferred interface identifies the nil value. -/
theorem PInput.isNil_true {α : Type} {d : PInput α} (h : d.isNil = true) :
    d = .pNil := by
  cases d <;> simp [PInput.isNil] at h ⊢

/-- A non-secret deferred string field holding an unresolved output is left
untouched by the binder, whatever the Configuration Source contains. -/
theorem extractField_strOutput_noop (cfg : Config) (ff : FieldInfo)
    (name : String) (hdl : Nat) (hres : resolveFieldName ff = some (name, false)) :
    extractField cfg ff (.vStrInput (.pOutput hdl)) =
      .ok (.vStrInput (.pOutput hdl)) := by
  simp [extractField, hres, PInput.isNil, PInput.isLit, getConfigString]

/-- Bool analogue of `extractField_strOutput_noop`. -/
theorem extractField_boolOutput_noop (cfg : Config) (ff : FieldInfo)
    (name : String) (hdl : Nat) (hres : resolveFieldName ff = some (name, false)) :
    extractField cfg ff (.vBoolInput (.pOutput hdl)) =
      .ok (.vBoolInput (.pOutput hdl)) := by
  simp [extractField, hres, PInput.isNil, PInput.isLit, getConfigBool]

/-- Int analogue of `extractField_strOutput_noop`. -/
theorem extractField_intOutput_noop (cfg : Config) (ff : FieldInfo)
    (name : String) (hdl : Nat) (hres : resolveFieldName ff = some (name, false)) :
    extractField cfg ff (.vIntInput (.pOutput hdl)) =
      .ok (.vIntInput (.pOutput hdl)) := by
  simp [extractField, hres, PInput.isNil, PInput.isLit, getConfigInt]

/-- Float analogue of `extractField_strOutput_noop`. -/
theorem extractField_floatOutput_noop (cfg : Config) (ff : FieldInfo)
    (name : String) (hdl : Nat) (hres : resolveFieldName ff = some (name, false)) :
    extractField cfg ff (.vFloatInput (.pOutput hdl)) =
      .ok (.vFloatInput (.pOutput hdl)) := by
  simp [extractField, hres, PInput.isNil, PInput.isLit, getConfigFloat]

/-- When binding a non-secret deferred string field produces a literal
wrapper, either the field already held exactly that literal, or the read
value was the non-empty stored string and the field was nil or a literal. -/
theorem extractField_strInput_lit (cfg : Config) (ff : FieldInfo)
    (name : String) (d : PInput String) (x : String)
    (hres : resolveFieldName ff = some (name, false))
    (h : extractField cfg ff (.vStrInput d) = .ok (.vStrInput (.pLit x))) :
    PInput.pLit x = d ∨
      (x = cfg.get name ∧ x ≠ "" ∧ (d = .pNil ∨ d.isLit = true)) := by
  simp only [extractField, hres] at h
  rw [if_neg Bool.false_ne_true] at h
  split at h
  · cases h
  · cases h
  · rename_i val heq
    have hval := getConfigString_ok_val cfg name _ false val heq
    subst hval
    split at h
    · rename_i hc
      simp only [Bool.and_eq_true, Bool.or_eq_true, decide_eq_true_eq, ne_eq] at hc
      simp only [UResult.ok.injEq, FieldVal.vStrInput.injEq, PInput.pLit.injEq] at h
      subst h
      refine Or.inr ⟨rfl, hc.1, ?_⟩
      rcases hc.2 with hl | hn
      · exact Or.inr hl
      · exact Or.inl (PInput.isNil_true hn)
    · simp only [UResult.ok.injEq, FieldVal.vStrInput.injEq] at h
      exact Or.inl h.symm

/-- Bool analogue of `extractField_strInput_lit`: an assignment happens only
for a `true` read into a nil-or-literal field. -/
theorem extractField_boolInput_lit (cfg : Config) (ff : FieldInfo)
    (name : String) (d : PInput Bool) (x : Bool)
    (hres : resolveFieldName ff = some (name, false))
    (h : extractField cfg ff (.vBoolInput d) = .ok (.vBoolInput (.pLit x))) :
    PInput.pLit x = d ∨
      (x = parseBool (cfg.get name) ∧ x = true ∧ (d = .pNil ∨ d.isLit = true)) := by
  simp only [extractField, hres] at h
  rw [if_neg Bool.false_ne_true] at h
  split at h
  · cases h
  · cases h
  · rename_i val heq
    have hval := getConfigBool_ok_val cfg name _ false val heq
    subst hval
    split at h
    · rename_i hc
      simp only [Bool.and_eq_true, Bool.or_eq_true] at hc
      simp only [UResult.ok.injEq, FieldVal.vBoolInput.injEq, PInput.pLit.injEq] at h
      subst h
      refine Or.inr ⟨rfl, hc.1, ?_⟩
      rcases hc.2 with hl | hn
      · exact Or.inr hl
      · exact Or.inl (PInput.isNil_true hn)
    · simp only [UResult.ok.injEq, FieldVal.vBoolInput.injEq] at h
      exact Or.inl h.symm

/-- Int analogue of `extractField_strInput_lit`. -/
theorem extractField_intInput_lit (cfg : Config) (ff : FieldInfo)
    (name : String) (d : PInput Int) (x : Int)
    (hres : resolveFieldName ff = some (name, false))
    (h : extractField cfg ff (.vIntInput d) = .ok (.vIntInput (.pLit x))) :
    PInput.pLit x = d ∨
      (x = parseInt (cfg.get name) ∧ x ≠ 0 ∧ (d = .pNil ∨ d.isLit = true)) := by
  simp only [extractField, hres] at h
  rw [if_neg Bool.false_ne_true] at h
  split at h
  · cases h
  · cases h
  · rename_i val heq
    have hval := getConfigInt_ok_val cfg name _ false val heq
    subst hval
    split at h
    · rename_i hc
      simp only [Bool.and_eq_true, Bool.or_eq_true, decide_eq_true_eq, ne_eq] at hc
      simp only [UResult.ok.injEq, FieldVal.vIntInput.injEq, PInput.pLit.injEq] at h
      subst h
      refine Or.inr ⟨rfl, hc.1, ?_⟩
      rcases hc.2 with hl | hn
      · exact Or.inr hl
      · exact Or.inl (PInput.isNil_true hn)
    · simp only [UResult.ok.injEq, FieldVal.vIntInput.injEq] at h
      exact Or.inl h.symm

/-- Float analogue of `extractField_strInput_lit`. -/
theorem extractField_floatInput_lit (cfg : Config) (ff : FieldInfo)
    (name : String) (d : PInput ℚ) (x : ℚ)
    (hres : resolveFieldName ff = some (name, false))
    (h : extractField cfg ff (.vFloatInput d) = .ok (.vFloatInput (.pLit x))) :
    PInput.pLit x = d ∨
      (x = parseFloat (cfg.get name) ∧ x ≠ 0 ∧ (d = .pNil ∨ d.isLit = true)) := by
  simp only [extractField, hres] at h
  rw [if_neg Bool.false_ne_true] at h
  split at h
  · cases h
  · cases h
  · rename_i val heq
    have hval := getConfigFloat_ok_val cfg name _ false val heq
    subst hval
    split at h
    · rename_i hc
      simp only [Bool.and_eq_true, Bool.or_eq_true, decide_eq_true_eq, ne_eq] at hc
      simp only [UResult.ok.injEq, FieldVal.vFloatInput.injEq, PInput.pLit.injEq] at h
      subst h
      refine Or.inr ⟨rfl, hc.1, ?_⟩
      rcases hc.2 with hl | hn
      · exact Or.inr hl
      · exact Or.inl (PInput.isNil_true hn)
    · simp only [UResult.ok.injEq, FieldVal.vFloatInput.injEq] at h
      exact Or.inl h.symm

/-- C8: for a non-secret deferred-interface field, (1) a field already
holding an unresolved output handle is left unchanged by the binder's field
step, whatever the Configuration Source returns for its key; and (2) a
literal wrapper is the result only when the field already held exactly that
literal, or the value read from the source was non-zero and the field was
nil or held a literal wrapper (an unresolved output is never replaced by a
literal). -/
theorem c8_unresolved_output_frame (cfg : Config) (ff : FieldInfo)
    (name : String) (hres : resolveFieldName ff = some (name, false)) :
    (∀ v : FieldVal, isOutputVal v = true → extractField cfg ff v = .ok v) ∧
    (∀ (d : PInput String) (x : String),
        extractField cfg ff (.vStrInput d) = .ok (.vStrInput (.pLit x)) →
        PInput.pLit x = d ∨
          (x = cfg.get name ∧ x ≠ "" ∧ (d = .pNil ∨ d.isLit = true))) ∧
    (∀ (d : PInput Bool) (x : Bool),
        extractField cfg ff (.vBoolInput d) = .ok (.vBoolInput (.pLit x)) →
        PInput.pLit x = d ∨
          (x = parseBool (cfg.get name) ∧ x = true ∧ (d = .pNil ∨ d.isLit = true))) ∧
    (∀ (d : PInput Int) (x : Int),
        extractField cfg ff (.vIntInput d) = .ok (.vIntInput (.pLit x)) →
        PInput.pLit x = d ∨
          (x = parseInt (cfg.get name) ∧ x ≠ 0 ∧ (d = .pNil ∨ d.isLit = true))) ∧
    (∀ (d : PInput ℚ) (x : ℚ),
        extractField cfg ff (.vFloatInput d) = .ok (.vFloatInput (.pLit x)) →
        PInput.pLit x = d ∨
          (x = parseFloat (cfg.get name) ∧ x ≠ 0 ∧ (d = .pNil ∨ d.isLit = true))) := by
  refine ⟨?_, ?_, ?_, ?_, ?_⟩
  · intro v hout
    cases v with
    | vStrInput d =>
      cases d with
      | pOutput hdl => exact extractField_strOutput_noop cfg ff name hdl hres
      | pNil => simp [isOutputVal] at hout
      | pLit y => simp [isOutputVal] at hout
    | vBoolInput d =>
      cases d with
      | pOutput hdl => exact extractField_boolOutput_noop cfg ff name hdl hres
      | pNil => simp [isOutputVal] at hout
      | pLit y => simp [isOutputVal] at hout
    | vIntInput d =>
      cases d with
      | pOutput hdl => exact extractField_intOutput_noop cfg ff name hdl hres
      | pNil => simp [isOutputVal] at hout
      | pLit y => simp [isOutputVal] at hout
    | vFloatInput d =>
      cases d with
      | pOutput hdl => exact extractField_floatOutput_noop cfg ff name hdl hres
      | pNil => simp [isOutputVal] at hout
      | pLit y => simp [isOutputVal] at hout
    | vBool b => simp [isOutputVal] at hout
    | vInt i => simp [isOutputVal] at hout
    | vInt64 i => simp [isOutputVal] at hout
    | vFloat q => simp [isOutputVal] at hout
    | vString s => simp [isOutputVal] at hout
    | vMap m => simp [isOutputVal] at hout
    | vStruct s => simp [isOutputVal] at hout
    | vPtr z p => simp [isOutputVal] at hout
    | vSlice z xs => simp [isOutputVal] at hout
  · exact fun d x h => extractField_strInput_lit cfg ff name d x hres h
  · exact fun d x h => extractField_boolInput_lit cfg ff name d x hres h
  · exact fun d x h => extractField_intInput_lit cfg ff name d x hres h
  · exact fun d x h => extractField_floatInput_lit cfg ff name d x hres h

/-- Witness for C8 at a concrete field carrying the `json` tag `host`. -/
theorem c8_unresolved_output_frame_witness :
    resolveFieldName ⟨"Host", "", "host", "", true⟩ = some ("host", false) ∧
    extractField cfgEmpty ⟨"Host", "", "host", "", true⟩
        (.vStrInput (.pOutput 42)) = .ok (.vStrInput (.pOutput 42)) :=
  ⟨rfl,
    (c8_unresolved_output_frame cfgEmpty ⟨"Host", "", "host", "", true⟩
        "host" rfl).1 (.vStrInput (.pOutput 42)) rfl⟩

/-- C7 counterexample: a JSON array under a key whose target field is a
struct does not produce a returned error — the unchecked type assertion
`dict[fieldName].(map[string]interface{})` panics, so no `TypeMismatchError`
is surfaced to the caller as an error result. -/
theorem c7_counterexample :
    unmarshallJSONMap [("db", .jArr [])]
      (.ptrStruct (.mk [(⟨"Db", "", "db", "", false⟩, .vStruct (.mk []))])) =
      .panicked "interface conversion: not a JSON object" := by
  simp [unmarshallJSONMap, umFields, umField, resolveJsonName, jlookup]

/-- C7 amended: a shape mismatch at a scalar-kind field (here: a JSON array
under the field's key) is rejected by `setFieldValue` with the settability
error naming the field, and that error is surfaced unchanged through the
field loop to the caller of `unmarshallJSONMap`; mismatches at struct and
slice kinds and non-object array elements instead panic on unchecked type
assertions (see the counterexample). -/
theorem c7_scalar_mismatch_error (dict : List (String × JVal))
    (ff : FieldInfo) (name : String) (v : FieldVal) (xs : List JVal)
    (rest : List (FieldInfo × FieldVal))
    (hres : resolveJsonName ff = some name)
    (hlook : jlookup dict name = some (.jArr xs))
    (hscalar : isScalarKind v = true) :
    umField dict ff v = .error (.notSettable name) ∧
    unmarshallJSONMap dict (.ptrStruct (.mk ((ff, v) :: rest))) =
      .error (.notSettable name) := by
  have h1 : umField dict ff v = .error (.notSettable name) := by
    cases v with
    | vBool b => simp [umField, hres, hlook, setFieldValue]
    | vInt i => simp [umField, hres, hlook, setFieldValue]
    | vInt64 i => simp [umField, hres, hlook, setFieldValue]
    | vFloat q => simp [umField, hres, hlook, setFieldValue]
    | vString s => simp [umField, hres, hlook, setFieldValue]
    | vMap m => simp [isScalarKind] at hscalar
    | vStruct s => simp [isScalarKind] at hscalar
    | vPtr z p => simp [isScalarKind] at hscalar
    | vSlice z l => simp [isScalarKind] at hscalar
    | vStrInput d => simp [isScalarKind] at hscalar
    | vBoolInput d => simp [isScalarKind] at hscalar
    | vIntInput d => simp [isScalarKind] at hscalar
    | vFloatInput d => simp [isScalarKind] at hscalar
  refine ⟨h1, ?_⟩
  simp only [unmarshallJSONMap, umFields, h1]

/-- Witness for C7 amended: a JSON array under the scalar key `port`. -/
theorem c7_scalar_mismatch_error_witness :
    resolveJsonName ⟨"Port", "", "port", "", false⟩ = some "port" ∧
    jlookup [("port", .jArr [])] "port" = some (.jArr []) ∧
    isScalarKind (.vInt 0) = true ∧
    umField [("port", .jArr [])] ⟨"Port", "", "port", "", false⟩ (.vInt 0) =
      .error (.notSettable "port") ∧
    unmarshallJSONMap [("port", .jArr [])]
        (.ptrStruct (.mk [(⟨"Port", "", "port", "", false⟩, .vInt 0)])) =
      .error (.notSettable "port") := by
  refine ⟨rfl, rfl, rfl, ?_⟩
  exact c7_scalar_mismatch_error [("port", .jArr [])]
    ⟨"Port", "", "port", "", false⟩ "port" (.vInt 0) [] [] rfl rfl rfl

/-- A key bound by no field of the list is left at its incoming value by the
`MarshalJSONConfig` fold. -/
theorem marshal_fold_absent (l : List (FieldInfo × FieldVal))
    (init : String → Option JVal) (k : String)
    (h : ∀ p ∈ l, displayKey p.1 ≠ k) :
    (l.foldl
      (fun acc p k2 => if k2 = displayKey p.1 then some (displayVal p.2) else acc k2)
      init) k = init k := by
  induction l generalizing init with
  | nil => rfl
  | cons p rest ih =>
    simp only [List.foldl_cons]
    rw [ih _ (fun q hq => h q (List.mem_cons_of_mem _ hq))]
    have hp := h p (List.mem_cons_self _ _)
    exact if_neg (fun hh : k = displayKey p.1 => hp hh.symm)

/-- With pairwise-distinct display keys, the `MarshalJSONConfig` fold maps a
field's key to that field's display value. -/
theorem marshal_fold_mem (l : List (FieldInfo × FieldVal)) (ff : FieldInfo)
    (fv : FieldVal) (hmem : (ff, fv) ∈ l)
    (hnd : (l.map (fun p => displayKey p.1)).Nodup) :
    ∀ init : String → Option JVal,
    (l.foldl
      (fun acc p k2 => if k2 = displayKey p.1 then some (displayVal p.2) else acc k2)
      init) (displayKey ff) = some (displayVal fv) := by
  induction l with
  | nil => cases hmem
  | cons p rest ih =>
    intro init
    simp only [List.map_cons, List.nodup_cons] at hnd
    rcases List.mem_cons.mp hmem with heq | hmem'
    · subst heq
      simp only [List.foldl_cons]
      rw [marshal_fold_absent rest _ (displayKey ff) ?_]
      · simp
      · intro q hq hk
        exact hnd.1 (hk ▸ List.mem_map_of_mem (fun p => displayKey p.1) hq)
    · simp only [List.foldl_cons]
      exact ih hmem' hnd.2 _

/-- The display value of a field ignores the opaque state of a deferred
output (outputs of the same capability display identically). -/
theorem displayVal_erase (v : FieldVal) :
    displayVal (eraseOutputHandleVal v) = displayVal v := by
  cases v with
  | vStrInput d => cases d <;> rfl
  | vBoolInput d => cases d <;> rfl
  | vIntInput d => cases d <;> rfl
  | vFloatInput d => cases d <;> rfl
  | vBool b => rfl
  | vInt i => rfl
  | vInt64 i => rfl
  | vFloat q => rfl
  | vString s => rfl
  | vMap m => rfl
  | vStruct s => rfl
  | vPtr z p => rfl
  | vSlice z xs => rfl

/-- Erasing output handles does not change the result of the
`MarshalJSONConfig` fold. -/
theorem marshal_fold_erase (l : List (FieldInfo × FieldVal))
    (init : String → Option JVal) :
    (List.map (fun p => (p.1, eraseOutputHandleVal p.2)) l).foldl
      (fun acc p k2 => if k2 = displayKey p.1 then some (displayVal p.2) else acc k2)
      init =
    l.foldl
      (fun acc p k2 => if k2 = displayKey p.1 then some (displayVal p.2) else acc k2)
      init := by
  induction l generalizing init with
  | nil => rfl
  | cons p rest ih =>
    simp only [List.map_cons, List.foldl_cons, displayVal_erase]
    exact ih _

/-- C3: for every bound struct whose display keys are pairwise distinct,
every field whose runtime value is one of the four deferred output wrappers
is emitted by `MarshalJSONConfig` as the fixed placeholder string of its
capability under the field's `json`-tag key (or field name when the tag is
absent); and the marshalled map is unchanged when every output's opaque
state is erased, so two structs that differ only in the deferred values of
their output fields serialize identically — an output's literal or handle
never reaches the serialized form. -/
theorem c3_secrecy_placeholder (s : StructVal) (ff : FieldInfo) (fv : FieldVal)
    (hmem : (ff, fv) ∈ s.fields)
    (hnd : (s.fields.map (fun p => displayKey p.1)).Nodup)
    (hout : isOutputVal fv = true) :
    MarshalJSONConfig s (displayKey ff) = some (.jStr (placeholderOf fv)) ∧
    MarshalJSONConfig s = MarshalJSONConfig (eraseOutputHandles s) := by
  constructor
  · rw [MarshalJSONConfig, marshal_fold_mem s.fields ff fv hmem hnd]
    congr 1
    cases fv with
    | vStrInput d => cases d <;> simp [isOutputVal] at hout <;> rfl
    | vBoolInput d => cases d <;> simp [isOutputVal] at hout <;> rfl
    | vIntInput d => cases d <;> simp [isOutputVal] at hout <;> rfl
    | vFloatInput d => cases d <;> simp [isOutputVal] at hout <;> rfl
    | vBool b => simp [isOutputVal] at hout
    | vInt i => simp [isOutputVal] at hout
    | vInt64 i => simp [isOutputVal] at hout
    | vFloat q => simp [isOutputVal] at hout
    | vString s => simp [isOutputVal] at hout
    | vMap m => simp [isOutputVal] at hout
    | vStruct s => simp [isOutputVal] at hout
    | vPtr z p => simp [isOutputVal] at hout
    | vSlice z xs => simp [isOutputVal] at hout
  · obtain ⟨l⟩ := s
    unfold MarshalJSONConfig eraseOutputHandles
    simp only [StructVal.fields]
    exact (marshal_fold_erase l _).symm

/-- A key whose optional read is non-empty is present in the store. -/
theorem Config.store_of_get_ne (cfg : Config) (k : String)
    (h : cfg.get k ≠ "") : cfg.store k = some (cfg.get k) := by
  unfold Config.get at h ⊢
  cases hs : cfg.store k with
  | none => rw [hs] at h; exact absurd rfl h
  | some s => rfl

/-- On a present key the bool accessor reads the parsed stored string for
either requiredness flag. -/
theorem getConfigBool_of_store (cfg : Config) (k : String) (v : String)
    (r s : Bool) (h : cfg.store k = some v) :
    getConfigBool cfg ⟨k, r, s⟩ = .ok (parseBool (cfg.get k)) := by
  unfold getConfigBool Config.require Config.get
  cases r with
  | false => rfl
  | true => simp [h]

/-- Each run of the field step on a purely scalar (or untagged) field is
idempotent: a second run on the produced value returns it unchanged, and the
produced value is again scalar (or the field is again untagged). -/
theorem extractField_scalar_idem (cfg : Config) (ff : FieldInfo)
    (fv fv' : FieldVal)
    (hk : resolveFieldName ff = none ∨ isScalarKind fv = true)
    (h : extractField cfg ff fv = .ok fv') :
    extractField cfg ff fv' = .ok fv' ∧
    (resolveFieldName ff = none ∨ isScalarKind fv' = true) := by
  rcases hres : resolveFieldName ff with _ | ⟨name, sec⟩
  · simp only [extractField, hres] at h
    cases h
    exact ⟨by simp [extractField, hres], Or.inl rfl⟩
  · have hscalar : isScalarKind fv = true := by
      rcases hk with hn | hs
      · rw [hres] at hn
        cases hn
      · exact hs
    have h0 := h
    cases fv with
    | vBool b =>
      simp only [extractField, hres] at h
      split at h
      · cases h
      · cases h
      · rename_i val heq
        have hval := getConfigBool_ok_val cfg name _ sec val heq
        split at h
        · cases h
        · rename_i hsec
          have hsec' : sec = false := by
            cases sec
            · rfl
            · exact absurd rfl hsec
          subst hsec'
          split at h
          · rename_i hv
            cases h
            subst hval
            have hget : cfg.get name = "true" := by
              have := of_decide_eq_true (by simpa [parseBool] using hv)
              exact this
            have hstore : cfg.store name = some (cfg.get name) :=
              cfg.store_of_get_ne name (by rw [hget]; decide)
            refine ⟨?_, Or.inr rfl⟩
            simp only [extractField, hres, hv, Bool.and_true]
            rw [getConfigBool_of_store cfg name _ ff.required false hstore]
            simp [hv]
          · cases h
            exact ⟨h0, Or.inr rfl⟩
    | vInt i =>
      simp only [extractField, hres] at h
      split at h
      · cases h
      · cases h
      · rename_i val heq
        have hval := getConfigInt_ok_val cfg name _ sec val heq
        split at h
        · cases h
        · rename_i hsec
          have hsec' : sec = false := by
            cases sec
            · rfl
            · exact absurd rfl hsec
          subst hsec'
          split at h
          · rename_i hv
            have hv' : ¬(val = 0) := hv
            cases h
            refine ⟨?_, Or.inr rfl⟩
            simp only [extractField, hres]
            rw [show (ff.required && decide (val = 0)) = false by
              simp [hv']]
            rw [show getConfigInt cfg ⟨name, false, false⟩ =
                .ok (parseInt (cfg.get name)) from rfl]
            rw [← hval]
            simp [hv']
          · cases h
            exact ⟨h0, Or.inr rfl⟩
    | vInt64 i =>
      simp only [extractField, hres] at h
      split at h
      · cases h
      · cases h
      · rename_i val heq
        have hval := getConfigInt_ok_val cfg name _ sec val heq
        split at h
        · cases h
        · rename_i hsec
          have hsec' : sec = false := by
            cases sec
            · rfl
            · exact absurd rfl hsec
          subst hsec'
          split at h
          · rename_i hv
            have hv' : ¬(val = 0) := hv
            cases h
            refine ⟨?_, Or.inr rfl⟩
            simp only [extractField, hres]
            rw [show (ff.required && decide (val = 0)) = false by
              simp [hv']]
            rw [show getConfigInt cfg ⟨name, false, false⟩ =
                .ok (parseInt (cfg.get name)) from rfl]
            rw [← hval]
            simp [hv']
          · cases h
            exact ⟨h0, Or.inr rfl⟩
    | vFloat q =>
      simp only [extractField, hres] at h
      split at h
      · cases h
      · cases h
      · rename_i val heq
        have hval := getConfigFloat_ok_val cfg name _ sec val heq
        split at h
        · cases h
        · rename_i hsec
          have hsec' : sec = false := by
            cases sec
            · rfl
            · exact absurd rfl hsec
          subst hsec'
          split at h
          · rename_i hv
            have hv' : ¬(val = 0) := hv
            cases h
            refine ⟨?_, Or.inr rfl⟩
            simp only [extractField, hres]
            rw [show (ff.required && decide (val = 0)) = false by
              simp [hv']]
            rw [show getConfigFloat cfg ⟨name, false, false⟩ =
                .ok (parseFloat (cfg.get name)) from rfl]
            rw [← hval]
            simp [hv']
          · cases h
            exact ⟨h0, Or.inr rfl⟩
    | vString s =>
      simp only [extractField, hres] at h
      split at h
      · cases h
      · cases h
      · rename_i val heq
        have hval := getConfigString_ok_val cfg name _ sec val heq
        split at h
        · cases h
        · rename_i hsec
          have hsec' : sec = false := by
            cases sec
            · rfl
            · exact absurd rfl hsec
          subst hsec'
          split at h
          · rename_i hv
            have hv' : ¬(val = "") := hv
            cases h
            refine ⟨?_, Or.inr rfl⟩
            simp only [extractField, hres]
            rw [show (ff.required && decide (val = "")) = false by
              simp [hv']]
            rw [show getConfigString cfg ⟨name, false, false⟩ =
                .ok (cfg.get name) from rfl]
            rw [← hval]
            simp [hv']
          · cases h
            exact ⟨h0, Or.inr rfl⟩
    | vMap m => simp [isScalarKind] at hscalar
    | vStruct s => simp [isScalarKind] at hscalar
    | vPtr z p => simp [isScalarKind] at hscalar
    | vSlice z xs => simp [isScalarKind] at hscalar
    | vStrInput d => simp [isScalarKind] at hscalar
    | vBoolInput d => simp [isScalarKind] at hscalar
    | vIntInput d => simp [isScalarKind] at hscalar
    | vFloatInput d => simp [isScalarKind] at hscalar

/-- List version of `extractField_scalar_idem` over the `ExtractConfig`
field loop. -/
theorem extractFields_scalar_idem (cfg : Config)
    (l : List (FieldInfo × FieldVal))
    (hk : ∀ p ∈ l, resolveFieldName p.1 = none ∨ isScalarKind p.2 = true) :
    ∀ l', extractFields cfg l = .ok l' → extractFields cfg l' = .ok l' := by
  induction l with
  | nil =>
    intro l' h
    simp only [extractFields] at h
    cases h
    rfl
  | cons p rest ih =>
    intro l' h
    obtain ⟨ff, fv⟩ := p
    simp only [extractFields] at h
    split at h
    · cases h
    · cases h
    · rename_i fv' hf
      split at h
      · rename_i rest' hrest
        cases h
        have hfi := extractField_scalar_idem cfg ff fv fv'
          (hk (ff, fv) (List.mem_cons_self _ _)) hf
        have hri := ih (fun q hq => hk q (List.mem_cons_of_mem _ hq)) rest' hrest
        simp only [extractFields, hfi.1, hri]
      · cases h
      · cases h

/-- C5: on a target whose tagged fields are all of scalar kind (untagged
fields of any kind are skipped), a successful `ExtractConfig` run is
idempotent — running it again over the same Configuration Source and
namespace returns the produced state unchanged. -/
theorem c5_scalar_rebind_idempotent (cfg : Config)
    (fields fields' : List (FieldInfo × FieldVal))
    (hk : ∀ p ∈ fields, resolveFieldName p.1 = none ∨ isScalarKind p.2 = true)
    (h : ExtractConfig cfg (.ptrStruct (.mk fields)) =
      .ok (.ptrStruct (.mk fields'))) :
    ExtractConfig cfg (.ptrStruct (.mk fields')) =
      .ok (.ptrStruct (.mk fields')) := by
  simp only [ExtractConfig] at h
  split at h
  · rename_i fs' hf
    cases h
    have hidem := extractFields_scalar_idem cfg fields hk _ hf
    simp only [ExtractConfig, hidem]
  · cases h
  · cases h

/-- A Configuration Source holding only `count = "7"`. -/
def cfgC5 : Config :=
  ⟨fun k => if k = "count" then some "7" else none, fun _ => none, fun _ => 0⟩

/-- Witness for C5: rebinding an already-bound scalar target changes
nothing. -/
theorem c5_scalar_rebind_idempotent_witness :
    (∀ p ∈ [((⟨"Count", "", "count", "", false⟩ : FieldInfo), FieldVal.vInt 0)],
        resolveFieldName p.1 = none ∨ isScalarKind p.2 = true) ∧
    ExtractConfig cfgC5
        (.ptrStruct (.mk [(⟨"Count", "", "count", "", false⟩, .vInt 0)])) =
      .ok (.ptrStruct (.mk [(⟨"Count", "", "count", "", false⟩, .vInt 7)])) ∧
    ExtractConfig cfgC5
        (.ptrStruct (.mk [(⟨"Count", "", "count", "", false⟩, .vInt 7)])) =
      .ok (.ptrStruct (.mk [(⟨"Count", "", "count", "", false⟩, .vInt 7)])) :=
  ⟨by decide, rfl,
    c5_scalar_rebind_idempotent cfgC5
      [(⟨"Count", "", "count", "", false⟩, .vInt 0)]
      [(⟨"Count", "", "count", "", false⟩, .vInt 7)] (by decide) rfl⟩

/-- A display struct with a literal field and a deferred output field. -/
def c3Sample : StructVal :=
  .mk [(⟨"Username", "", "username", "", false⟩, .vString "admin"),
       (⟨"Password", "", "password", "", false⟩, .vStrInput (.pOutput 42))]

/-- Witness for C3 on `c3Sample`: the deferred password serializes as the
fixed placeholder and the serialization ignores the output's state. -/
theorem c3_secrecy_placeholder_witness :
    ((⟨"Password", "", "password", "", false⟩ : FieldInfo),
        FieldVal.vStrInput (.pOutput 42)) ∈ c3Sample.fields ∧
    (c3Sample.fields.map (fun p => displayKey p.1)).Nodup ∧
    isOutputVal (.vStrInput (.pOutput 42)) = true ∧
    (MarshalJSONConfig c3Sample
        (displayKey ⟨"Password", "", "password", "", false⟩) =
      some (.jStr (placeholderOf (.vStrInput (.pOutput 42)))) ∧
     MarshalJSONConfig c3Sample = MarshalJSONConfig (eraseOutputHandles c3Sample)) :=
  ⟨List.mem_cons_of_mem _ (List.mem_cons_self _ _), by decide, rfl,
    c3_secrecy_placeholder c3Sample ⟨"Password", "", "password", "", false⟩
      (.vStrInput (.pOutput 42))
      (List.mem_cons_of_mem _ (List.mem_cons_self _ _)) (by decide) rfl⟩

/-- Setting the position just past a list inside its one-element extension
replaces that element. -/
theorem set_append_len (l : List StructVal) (z y : StructVal) :
    (l ++ [z]).set l.length y = l ++ [y] := by
  induction l with
  | nil => rfl
  | cons a t ih => simp [List.set_cons_succ, ih]

/-- What a successful run of the `unmarshallJSONArray` loop produces, for a
slice whose length equals `initLen + i` (the invariant of the loop): the
existing elements stay, and for each input element (necessarily a JSON
object) a zero element is appended and bound by the `unmarshallJSONMap`
field loop. -/
theorem umArrLoop_spec (z : StructVal) (arr : List JVal) :
    ∀ (i L : Nat) (cur l : List StructVal), cur.length = L + i →
      umArrLoop z arr i L cur = .ok l →
      l.length = cur.length + arr.length ∧
      l.take cur.length = cur ∧
      ∀ j, j < arr.length →
        ∃ d fs2, arr[j]? = some (.jObj d) ∧ umFields d z.fields = .ok fs2 ∧
          l[cur.length + j]? = some (StructVal.mk fs2) := by
  induction arr with
  | nil =>
    intro i L cur l hlen h
    rw [umArrLoop.eq_def] at h
    dsimp only at h
    cases h
    exact ⟨by simp, by simp, fun j hj => absurd hj (by simp)⟩
  | cons val rest ih =>
    intro i L cur l hlen h
    rw [umArrLoop.eq_def] at h
    cases val with
    | jObj d =>
      dsimp only at h
      rw [if_pos (by omega)] at h
      have hget : (cur ++ [z])[L + i]? = some z := by
        rw [show L + i = cur.length by omega]
        exact List.getElem?_concat_length cur z
      rw [hget] at h
      dsimp only at h
      split at h
      · cases h
      · cases h
      · rename_i fs2 heq
        rw [show L + i = cur.length by omega, set_append_len] at h
        have hrec := ih (i + 1) L (cur ++ [.mk fs2]) l
          (by simp; omega) h
        obtain ⟨hlen2, htake2, hjs⟩ := hrec
        refine ⟨?_, ?_, ?_⟩
        · simp only [List.length_append, List.length_cons, List.length_nil] at hlen2 ⊢
          omega
        · have : l.take cur.length = (l.take (cur ++ [StructVal.mk fs2]).length).take cur.length := by
            rw [List.take_take]
            congr 1
            simp
          rw [this, htake2]
          simpa using List.take_left cur [StructVal.mk fs2]
        · intro j hj
          cases j with
          | zero =>
            refine ⟨d, fs2, by simp, heq, ?_⟩
            have hidx : l[cur.length]? = (cur ++ [StructVal.mk fs2])[cur.length]? := by
              conv_rhs => rw [← htake2]
              rw [List.getElem?_take_of_lt (by simp)]
            rw [Nat.add_zero, hidx]
            exact List.getElem?_concat_length cur (StructVal.mk fs2)
          | succ j' =>
            obtain ⟨d', fs2', hB, hF, hl⟩ := hjs j' (by simpa using hj)
            refine ⟨d', fs2', by simpa using hB, hF, ?_⟩
            rw [show cur.length + (j' + 1) = (cur ++ [StructVal.mk fs2]).length + j' by
              simp; omega]
            exact hl
    | jNull => dsimp only at h; cases h
    | jBool b => dsimp only at h; cases h
    | jNum q => dsimp only at h; cases h
    | jStr s => dsimp only at h; cases h
    | jArr xs => dsimp only at h; cases h

/-- C1 (append law): binding a JSON array `A` into an empty or nil slice and
then binding a JSON array `B` into the result yields a slice of length
`A.length + B.length` whose first `A.length` elements are exactly the result
of binding `A` alone, and whose element at index `A.length + j` is the
zero element bound from `B`'s `j`-th object by the `unmarshallJSONMap` field
loop. -/
theorem c1_append_law (z : StructVal) (A B : List JVal)
    (s0 l1 l2 : Option (List StructVal))
    (hstart : s0 = none ∨ s0 = some [])
    (h1 : unmarshallJSONArray A (.ptrSlice z s0) = .ok (.ptrSlice z l1))
    (h2 : unmarshallJSONArray B (.ptrSlice z l1) = .ok (.ptrSlice z l2)) :
    (l1.getD []).length = A.length ∧
    (l2.getD []).length = A.length + B.length ∧
    (l2.getD []).take A.length = l1.getD [] ∧
    ∀ j, j < B.length →
      ∃ d fs2, B[j]? = some (.jObj d) ∧ umFields d z.fields = .ok fs2 ∧
        (l2.getD [])[A.length + j]? = some (StructVal.mk fs2) := by
  have hs0 : s0.getD [] = [] := by rcases hstart with rfl | rfl <;> rfl
  simp only [unmarshallJSONArray] at h1 h2
  rw [hs0] at h1
  simp only [List.length_nil] at h1
  split at h1
  · rename_i lA heqA
    simp only [UResult.ok.injEq, GoObj.ptrSlice.injEq, true_and] at h1
    have hspecA := umArrLoop_spec z A 0 0 [] lA rfl heqA
    have hAlen : lA.length = A.length := by
      have := hspecA.1
      simpa using this
    have hl1 : l1.getD [] = lA := by
      cases hA : A.isEmpty with
      | true =>
        have hAnil : A = [] := by simpa using hA
        subst hAnil
        rw [umArrLoop.eq_def] at heqA
        dsimp only at heqA
        cases heqA
        rw [hA] at h1
        simp only [if_true] at h1
        rw [← h1, hs0]
      | false =>
        rw [hA] at h1
        simp only [if_false, Bool.false_eq_true] at h1
        rw [← h1]
        rfl
    rw [hl1] at h2
    split at h2
    · rename_i lB heqB
      simp only [UResult.ok.injEq, GoObj.ptrSlice.injEq, true_and] at h2
      have hspecB := umArrLoop_spec z B 0 lA.length lA lB rfl heqB
      obtain ⟨hBlen, hBtake, hBjs⟩ := hspecB
      have hl2 : l2.getD [] = lB := by
        cases hB : B.isEmpty with
        | true =>
          have hBnil : B = [] := by simpa using hB
          subst hBnil
          rw [umArrLoop.eq_def] at heqB
          dsimp only at heqB
          cases heqB
          rw [hB] at h2
          simp only [if_true] at h2
          rw [← h2, hl1]
        | false =>
          rw [hB] at h2
          simp only [if_false, Bool.false_eq_true] at h2
          rw [← h2]
          rfl
      refine ⟨?_, ?_, ?_, ?_⟩
      · rw [hl1]
        exact hAlen
      · rw [hl2, hBlen, hAlen]
      · rw [hl2, ← hAlen, hBtake]
        exact hl1.symm
      · intro j hj
        obtain ⟨d, fs2, hB1, hB2, hB3⟩ := hBjs j hj
        refine ⟨d, fs2, hB1, hB2, ?_⟩
        rw [hl2, show A.length = lA.length from hAlen.symm]
        exact hB3
    · cases h2
    · cases h2
  · cases h1
  · cases h1

/-- The zero value of a one-field user struct. -/
def zUser : StructVal := .mk [(⟨"Username", "", "username", "", false⟩, .vString "")]

/-- The user struct bound with a username. -/
def userVal (s : String) : StructVal :=
  .mk [(⟨"Username", "", "username", "", false⟩, .vString s)]

/-- Witness for C1: one-element arrays `a` then `b` bound into a nil slice
append rather than replace. -/
theorem c1_append_law_witness :
    ((none : Option (List StructVal)) = none ∨
      (none : Option (List StructVal)) = some []) ∧
    unmarshallJSONArray [.jObj [("username", .jStr "a")]] (.ptrSlice zUser none) =
      .ok (.ptrSlice zUser (some [userVal "a"])) ∧
    unmarshallJSONArray [.jObj [("username", .jStr "b")]]
        (.ptrSlice zUser (some [userVal "a"])) =
      .ok (.ptrSlice zUser (some [userVal "a", userVal "b"])) ∧
    ((Option.getD (some [userVal "a"]) []).length =
        [JVal.jObj [("username", .jStr "a")]].length ∧
      (Option.getD (some [userVal "a", userVal "b"]) []).length =
        [JVal.jObj [("username", .jStr "a")]].length +
          [JVal.jObj [("username", .jStr "b")]].length ∧
      (Option.getD (some [userVal "a", userVal "b"]) []).take
          [JVal.jObj [("username", .jStr "a")]].length =
        Option.getD (some [userVal "a"]) [] ∧
      ∀ j, j < [JVal.jObj [("username", .jStr "b")]].length →
        ∃ d fs2, [JVal.jObj [("username", .jStr "b")]][j]? = some (.jObj d) ∧
          umFields d zUser.fields = .ok fs2 ∧
          (Option.getD (some [userVal "a", userVal "b"]) [])[[JVal.jObj [("username", .jStr "a")]].length + j]? = some (StructVal.mk fs2)) := by
  have hA : unmarshallJSONArray [.jObj [("username", .jStr "a")]]
      (.ptrSlice zUser none) = .ok (.ptrSlice zUser (some [userVal "a"])) := by
    simp [unmarshallJSONArray, umArrLoop, umFields, umField, resolveJsonName,
      jlookup, setFieldValue, zUser, userVal, StructVal.fields]
  have hB : unmarshallJSONArray [.jObj [("username", .jStr "b")]]
      (.ptrSlice zUser (some [userVal "a"])) =
      .ok (.ptrSlice zUser (some [userVal "a", userVal "b"])) := by
    simp [unmarshallJSONArray, umArrLoop, umFields, umField, resolveJsonName,
      jlookup, setFieldValue, zUser, userVal, StructVal.fields]
  exact ⟨Or.inl rfl, hA, hB,
    c1_append_law zUser [.jObj [("username", .jStr "a")]]
      [.jObj [("username", .jStr "b")]] none (some [userVal "a"])
      (some [userVal "a", userVal "b"]) (Or.inl rfl) hA hB⟩
